import Mathlib

/-!
Verification of the miro-insights-risks repository against its design
specification.  The definitions below are a shallow embedding of the
TypeScript sources `miro-poc.ts` and `transport-mcp.ts`: JavaScript
numbers used for board coordinates become `ℚ`, fallible asynchronous
calls become `Except`-valued functions, and the external board/API
behaviour is passed in as an explicit outcome function.
-/

namespace MiroSpec

/-! ## String helpers (models of the JavaScript string primitives used) -/

/-- Model of JavaScript `String.prototype.includes` restricted to a
list-of-chars search: `isSubList pat l` is true iff `pat` occurs as a
contiguous sublist of `l`. -/
def isSubList (pat : List Char) : List Char → Bool
  | [] => pat.isEmpty
  | c :: cs => pat.isPrefixOf (c :: cs) || isSubList pat cs

/-- `s.includes(pat)` from JavaScript. -/
def strIncludes (s pat : String) : Bool := isSubList pat.data s.data

/-- ASCII whitespace test used by the model of `String.prototype.trim`. -/
def isWsChar (c : Char) : Bool := c == ' ' || c == '\n' || c == '\t' || c == '\r'

/-- Model of JavaScript `String.prototype.trim` (ASCII whitespace; all
titles and run ids in this program are ASCII). -/
def strTrim (s : String) : String :=
  ⟨((s.data.dropWhile isWsChar).reverse.dropWhile isWsChar).reverse⟩

/-- Model of JavaScript `s.split('\n')` on the character list. -/
def splitNlChars : List Char → List (List Char)
  | [] => [[]]
  | c :: cs =>
    if c = '\n' then [] :: splitNlChars cs
    else
      match splitNlChars cs with
      | [] => [[c]]
      | l :: ls => (c :: l) :: ls

/-- Model of JavaScript `s.split('\n')`. -/
def splitNl (s : String) : List String := (splitNlChars s.data).map String.mk

theorem splitNlChars_no_nl {l : List Char} (h : '\n' ∉ l) :
    splitNlChars l = [l] := by
  induction l with
  | nil => rfl
  | cons c cs ih =>
    have hc : ¬ c = '\n' := fun hc => h (hc ▸ List.mem_cons_self c cs)
    have hcs : '\n' ∉ cs := fun hm => h (List.mem_cons_of_mem c hm)
    simp [splitNlChars, hc, ih hcs]

theorem splitNlChars_line {l : List Char} (h : '\n' ∉ l) :
    splitNlChars (l ++ ['\n']) = [l, []] := by
  induction l with
  | nil => rfl
  | cons c cs ih =>
    have hc : ¬ c = '\n' := fun hc => h (hc ▸ List.mem_cons_self c cs)
    have hcs : '\n' ∉ cs := fun hm => h (List.mem_cons_of_mem c hm)
    simp [splitNlChars, hc, ih hcs]

/-! ## Data model (`miro-poc.ts` interfaces) -/

/-- `FrameSpec` from `miro-poc.ts`: a frame with centre coordinates. -/
structure FrameSpec where
  id : String
  title : String
  x : ℚ
  y : ℚ
  width : ℚ
  height : ℚ
deriving DecidableEq

/-- `StickySpec` from `miro-poc.ts`. -/
structure StickySpec where
  content : String
  x : ℚ
  y : ℚ
  width? : Option ℚ := none
  height? : Option ℚ := none
  parentId? : Option String := none
deriving DecidableEq

/-- The optional options bag accepted by `gridLayoutInFrame`. -/
structure GridOpts where
  columns? : Option Nat := none
  gap? : Option ℚ := none
  pad? : Option ℚ := none
  noteW? : Option ℚ := none
  noteH? : Option ℚ := none

/-! ## Layout engine (`gridLayoutInFrame`, miro-poc.ts lines 278-300) -/

/-- The `items.forEach((text, idx) => ...)` loop body of
`gridLayoutInFrame`, with the running index made explicit. -/
def layoutGo (startX startY noteW noteH gap : ℚ) (columns : Nat) :
    Nat → List String → List StickySpec
  | _, [] => []
  | idx, t :: rest =>
    { content := t,
      x := startX + ((idx % columns : Nat) : ℚ) * (noteW + gap),
      y := startY + ((idx / columns : Nat) : ℚ) * (noteH + gap),
      width? := some noteW } ::
      layoutGo startX startY noteW noteH gap columns (idx + 1) rest

/-- `gridLayoutInFrame(frame, items, opts)`: pure grid placement.
Defaults: 3 columns, gap 20, pad 40, note 180×120.  The anchor is the
frame's top-left corner plus padding. -/
def gridLayoutInFrame (frame : FrameSpec) (items : List String) (opts : GridOpts) :
    List StickySpec :=
  let columns := opts.columns?.getD 3
  let gap := opts.gap?.getD 20
  let pad := opts.pad?.getD 40
  let noteW := opts.noteW?.getD 180
  let noteH := opts.noteH?.getD 120
  let frameLeft := frame.x - frame.width / 2
  let frameTop := frame.y - frame.height / 2
  let startX := frameLeft + pad
  let startY := frameTop + pad
  layoutGo startX startY noteW noteH gap columns 0 items

theorem layoutGo_length (sX sY w h g : ℚ) (cols : Nat) :
    ∀ (l : List String) (idx : Nat),
      (layoutGo sX sY w h g cols idx l).length = l.length := by
  intro l
  induction l with
  | nil => intro idx; rfl
  | cons t rest ih => intro idx; simp [layoutGo, ih]

theorem layoutGo_getElem (sX sY w h g : ℚ) (cols : Nat) :
    ∀ (l : List String) (idx i : Nat) (hi : i < l.length),
      (layoutGo sX sY w h g cols idx l)[i]? =
        some { content := l[i],
               x := sX + (((idx + i) % cols : Nat) : ℚ) * (w + g),
               y := sY + (((idx + i) / cols : Nat) : ℚ) * (h + g),
               width? := some w } := by
  intro l
  induction l with
  | nil => intro idx i hi; simp at hi
  | cons t rest ih =>
    intro idx i hi
    cases i with
    | zero => simp [layoutGo]
    | succ j =>
      have hj : j < rest.length := Nat.lt_of_succ_lt_succ hi
      have := ih (idx + 1) j hj
      simpa [layoutGo, Nat.add_assoc, Nat.add_comm 1 j] using this

/-- C7.  For every container geometry, item list and configuration (with a
positive column count, the only case in which the source's `idx % columns`
and `Math.floor(idx / columns)` denote grid arithmetic), `gridLayoutInFrame`
is a pure function that produces exactly one sticky per item and places the
item at index `i` at `anchor + (col·(itemWidth+gap), row·(itemHeight+gap))`
with `anchor` the container top-left plus padding, `col = i % columns`,
`row = i / columns`.  Determinism is inherent: the embedding is a pure
function of its arguments. -/
theorem gridLayout_position_spec (frame : FrameSpec) (items : List String)
    (opts : GridOpts) (hcols : 0 < opts.columns?.getD 3) :
    (gridLayoutInFrame frame items opts).length = items.length
    ∧ ∀ i (hi : i < items.length),
      (gridLayoutInFrame frame items opts)[i]? =
        some { content := items[i],
               x := (frame.x - frame.width / 2 + opts.pad?.getD 40)
                    + ((i % opts.columns?.getD 3 : Nat) : ℚ)
                      * (opts.noteW?.getD 180 + opts.gap?.getD 20),
               y := (frame.y - frame.height / 2 + opts.pad?.getD 40)
                    + ((i / opts.columns?.getD 3 : Nat) : ℚ)
                      * (opts.noteH?.getD 120 + opts.gap?.getD 20),
               width? := some (opts.noteW?.getD 180) } := by
  constructor
  · simpa [gridLayoutInFrame] using layoutGo_length _ _ _ _ _ _ items 0
  · intro i hi
    simpa [gridLayoutInFrame] using
      layoutGo_getElem (frame.x - frame.width / 2 + opts.pad?.getD 40)
        (frame.y - frame.height / 2 + opts.pad?.getD 40)
        (opts.noteW?.getD 180) (opts.noteH?.getD 120) (opts.gap?.getD 20)
        (opts.columns?.getD 3) items 0 i hi

/-- A frame used to exercise the layout theorem on concrete data. -/
def frame7 : FrameSpec := ⟨"F0", "Insights", 0, 0, 100, 100⟩

/-- Seven items, as in the spec's 7-items/3-columns example. -/
def items7 : List String := ["a", "b", "c", "d", "e", "f", "g"]

/-- A configuration selecting 3 columns (as the orchestrator does). -/
def opts3 : GridOpts := { columns? := some 3 }

/-- Witness for C7: with 7 items and 3 columns, item index 6 lands in
column 0, row 2: x = (0 - 50 + 40) + 0·200 = -10 and
y = (0 - 50 + 40) + 2·140 = 270. -/
theorem gridLayout_position_spec_witness :
    (0 < opts3.columns?.getD 3 ∧ 6 < items7.length)
    ∧ (gridLayoutInFrame frame7 items7 opts3)[6]? =
        some { content := "g", x := -10, y := 270, width? := some 180 } := by
  refine ⟨⟨by decide, by decide⟩, ?_⟩
  have h := (gridLayout_position_spec frame7 items7 opts3 (by decide)).2 6 (by decide)
  rw [h]
  norm_num [frame7, items7, opts3]

/-! ## Board items, REST listing and creation (miro-poc.ts lines 243-257) -/

/-- A sticky note as returned by the board service: the fields the
program reads are `data.content` (here `content`) and `parent.id`
(here `parent?`). -/
structure BoardSticky where
  id : String
  content : String
  parent? : Option String := none
  x : ℚ := 0
  y : ℚ := 0
  width? : Option ℚ := none
deriving DecidableEq

/-- `listStickyNotesInFrame` (miro-poc.ts lines 243-247): the service has
no parent filter, so the program lists sticky notes and keeps those whose
`parent.id` equals the frame id. -/
def listStickyNotesInFrame (notes : List BoardSticky) (frameId : String) :
    List BoardSticky :=
  notes.filter (fun n => n.parent? == some frameId)

/-- JavaScript truthiness of `note.width` in `createSticky`'s body:
`geometry` is sent only when the width is present and non-zero. -/
def truthyWidth : Option ℚ → Option ℚ
  | some w => if w = 0 then none else some w
  | none => none

/-- The board item produced by `createSticky` (miro-poc.ts lines 249-257):
the POST body carries `data.content`, `position` and (optionally)
`geometry`, but **no parent** — `note.parentId` is dropped. -/
def createStickyItem (newId : String) (note : StickySpec) : BoardSticky :=
  { id := newId,
    content := note.content,
    parent? := none,
    x := note.x,
    y := note.y,
    width? := truthyWidth note.width? }

/-- C10.  Every sticky created through the REST transport is sent without
any parent reference: the created item's parent is `none`, it is
independent of the `parentId` the orchestrator stored on the note, and
consequently it is invisible to `listStickyNotesInFrame`, which keeps
only items whose `parent.id` equals the frame id. -/
theorem createSticky_drops_parent (note : StickySpec) (p newId fid : String)
    (board : List BoardSticky) :
    (createStickyItem newId note).parent? = none
    ∧ createStickyItem newId { note with parentId? := some p } =
        createStickyItem newId note
    ∧ listStickyNotesInFrame (board ++ [createStickyItem newId note]) fid =
        listStickyNotesInFrame board fid := by
  refine ⟨rfl, rfl, ?_⟩
  simp [listStickyNotesInFrame, createStickyItem]

/-! ## Run-id decoration and delta computation (miro-poc.ts lines 361-382) -/

/-- `decorate` (miro-poc.ts line 362): append the run marker to a bullet. -/
def decorate (s runId : String) : String := s ++ "\n\n[runId:" ++ runId ++ "]"

/-- The marker substring tested by `hasRunId`. -/
def runMarker (runId : String) : String := "[runId:" ++ runId ++ "]"

/-- `hasRunId` (miro-poc.ts line 377): an item carries the current run's
marker iff its content contains `[runId:<id>]` as a substring. -/
def hasRunId (runId : String) (n : BoardSticky) : Bool :=
  strIncludes n.content (runMarker runId)

/-- `skipInsights` / `skipRisks` (miro-poc.ts lines 378-379): the contents
of the existing items that carry the current run's marker.  (The source
stores them in a `Set`; only membership is ever used, so a list model is
equivalent.) -/
def skipSet (runId : String) (existing : List BoardSticky) : List String :=
  (existing.filter (hasRunId runId)).map (·.content)

/-- `insightsToCreate` / `risksToCreate` (miro-poc.ts lines 381-382):
keep the decorated bullets whose full text is not in the skip set. -/
def computeToCreate (runId : String) (bullets : List String)
    (existing : List BoardSticky) : List String :=
  bullets.filter (fun s => !(skipSet runId existing).contains s)

/-- Two decorations with markers of equal length are equal only when the
run ids are equal: the strings end in `[runId:<id>]`, and equal-length
suffixes of equal strings coincide. -/
theorem decorate_runId_injective {t₁ t₂ r₁ r₂ : String}
    (h : decorate t₁ r₁ = decorate t₂ r₂) (hlen : r₁.length = r₂.length) :
    r₁ = r₂ := by
  have hd : (t₁.data ++ "\n\n[runId:".data) ++ (r₁.data ++ "]".data) =
      (t₂.data ++ "\n\n[runId:".data) ++ (r₂.data ++ "]".data) := by
    have := congrArg String.data h
    simpa [decorate, String.data_append, List.append_assoc] using this
  have hlen' : (r₁.data ++ "]".data).length = (r₂.data ++ "]".data).length := by
    have h₁ : r₁.data.length = r₁.length := rfl
    have h₂ : r₂.data.length = r₂.length := rfl
    simp [List.length_append, h₁, h₂, hlen]
  have hr : r₁.data ++ "]".data = r₂.data ++ "]".data :=
    List.append_inj_right' hd hlen'
  have : r₁.data = r₂.data := by
    have := List.append_inj' hr (by rfl)
    exact this.1
  exact String.ext this

/-- C8.  The delta computation skips a decorated bullet only on account of
an existing item whose full content equals the bullet (hence carries the
exact current-run marker); an existing item decorated with a prior run's
marker (a different run id of the same length — all run ids are 10 hex
characters) never causes the skip, even when its underlying text is
identical. -/
theorem dedup_boundary (runId t : String) (bullets : List String)
    (existing : List BoardSticky) (hb : decorate t runId ∈ bullets) :
    ((∀ n ∈ existing, ∃ tn rn, n.content = decorate tn rn
        ∧ rn.length = runId.length ∧ rn ≠ runId) →
      decorate t runId ∈ computeToCreate runId bullets existing)
    ∧ (decorate t runId ∉ computeToCreate runId bullets existing →
        ∃ m ∈ existing, hasRunId runId m = true
          ∧ m.content = decorate t runId) := by
  constructor
  · intro hprior
    have hnotskip : ¬ (skipSet runId existing).contains (decorate t runId) := by
      intro hc
      rw [List.contains_eq_any_beq] at hc
      simp only [List.any_eq_true, beq_iff_eq] at hc
      obtain ⟨s, hs, hseq⟩ := hc
      simp only [skipSet, List.mem_map, List.mem_filter] at hs
      obtain ⟨m, ⟨hm, _⟩, hms⟩ := hs
      obtain ⟨tn, rn, hcontent, hrlen, hrne⟩ := hprior m hm
      exact hrne (decorate_runId_injective (by rw [← hcontent, hms, hseq]) hrlen)
    have hmem : decorate t runId ∉ skipSet runId existing := by
      intro hmem
      exact hnotskip (by
        rw [List.contains_eq_any_beq]
        simp only [List.any_eq_true, beq_iff_eq]
        exact ⟨_, hmem, rfl⟩)
    simp only [computeToCreate, List.mem_filter]
    exact ⟨hb, by simpa using hmem⟩
  · intro hnot
    simp only [computeToCreate, List.mem_filter, Bool.not_eq_true', not_and,
      Bool.not_eq_false] at hnot
    have hc := hnot hb
    rw [List.contains_eq_any_beq] at hc
    simp only [List.any_eq_true, beq_iff_eq] at hc
    obtain ⟨s, hs, hseq⟩ := hc
    simp only [skipSet, List.mem_map, List.mem_filter] at hs
    obtain ⟨m, ⟨hm, hmark⟩, hms⟩ := hs
    exact ⟨m, hm, hmark, by rw [hms, hseq]⟩

/-- An existing item from a prior run, with the same underlying text. -/
def priorRunItem : BoardSticky :=
  { id := "old1", content := decorate "alpha" "bbbbbbbbbb", parent? := some "F1" }

/-- Witness for C8: with current run id `aaaaaaaaaa`, a board item holding
the identical text decorated under prior run id `bbbbbbbbbb` does not
suppress the bullet, which survives into the to-create list. -/
theorem dedup_boundary_witness :
    (decorate "alpha" "aaaaaaaaaa" ∈ [decorate "alpha" "aaaaaaaaaa"]
      ∧ (∀ n ∈ [priorRunItem], ∃ tn rn, n.content = decorate tn rn
          ∧ rn.length = ("aaaaaaaaaa" : String).length ∧ rn ≠ "aaaaaaaaaa"))
    ∧ decorate "alpha" "aaaaaaaaaa" ∈
        computeToCreate "aaaaaaaaaa" [decorate "alpha" "aaaaaaaaaa"] [priorRunItem] := by
  refine ⟨⟨by decide, ?_⟩, ?_⟩
  · intro n hn
    refine ⟨"alpha", "bbbbbbbbbb", ?_, by decide, by decide⟩
    have : n = priorRunItem := by simpa using hn
    rw [this]; rfl
  · exact (dedup_boundary "aaaaaaaaaa" "alpha" [decorate "alpha" "aaaaaaaaaa"]
      [priorRunItem] (by decide)).1
      (fun n hn => ⟨"alpha", "bbbbbbbbbb",
        by simp at hn; rw [hn]; rfl, by decide, by decide⟩)

/-! ## Retry/backoff (`backoff`, miro-poc.ts lines 102-119) -/

/-- The error shape the program inspects: `err?.status || err?.code`
plus an opaque message/body. -/
structure MiroErr where
  status? : Option Nat := none
  code? : Option Nat := none
  msg : String := ""
deriving DecidableEq

/-- `err?.status || err?.code` with JavaScript truthiness: a missing or
zero `status` falls through to `code`; a missing `code` yields a value
(`0` here) that compares unequal to 401 and 403, as `undefined` does. -/
def getStatus (e : MiroErr) : Nat :=
  match e.status? with
  | some s => if s = 0 then e.code?.getD 0 else s
  | none => e.code?.getD 0

/-- One execution of `backoff`'s `for` loop, with `remaining` the number
of attempts still allowed (initially `maxAttempts`; the loop body is
skipped once it reaches zero, after which the last error — `undefined`
when no attempt ran, modelled `none` — is thrown).  Returns the final
outcome, the list of delays actually slept (in ms, in order), and the
index of the last attempt executed. -/
def backoffGo (fn : Nat → Except MiroErr α) (attempt delay : Nat)
    (sleeps : List Nat) : Nat → Except (Option MiroErr) α × List Nat × Nat
  | 0 => (.error none, sleeps, attempt - 1)
  | r + 1 =>
    match fn attempt with
    | .ok a => (.ok a, sleeps, attempt)
    | .error e =>
      if getStatus e = 401 ∨ getStatus e = 403 then
        (.error (some e), sleeps, attempt)
      else if r = 0 then
        (.error (some e), sleeps, attempt)
      else
        backoffGo fn (attempt + 1) (min (delay * 2) 8000) (sleeps ++ [delay]) r

/-- `backoff(fn, label, maxAttempts)` with the initial 500ms delay.
`fn i` is the outcome of the i-th attempt (1-based), standing for the
awaited promise of the wrapped operation. -/
def backoffRun (fn : Nat → Except MiroErr α) (maxAttempts : Nat) :
    Except (Option MiroErr) α × List Nat × Nat :=
  backoffGo fn 1 500 [] maxAttempts

/-- C6.  Fail-fast and retry policy of `backoff` at the default 5
attempts: an error whose status (or code) is 401 or 403 on the first
attempt is rethrown at once — no sleep, no second attempt; when every
attempt fails with a non-auth error, the wrapper sleeps 500, 1000, 2000
and 4000 ms between the 5 attempts (each delay doubling, the doubling
capped at 8000 ms by `Math.min`) and finally rethrows the last error. -/
theorem backoff_policy_spec (α : Type) (fn g : Nat → Except MiroErr α)
    (e e1 e2 e3 e4 e5 : MiroErr)
    (hf : fn 1 = .error e) (hauth : getStatus e = 401 ∨ getStatus e = 403)
    (hg1 : g 1 = .error e1) (hg2 : g 2 = .error e2) (hg3 : g 3 = .error e3)
    (hg4 : g 4 = .error e4) (hg5 : g 5 = .error e5)
    (hn1 : ¬(getStatus e1 = 401 ∨ getStatus e1 = 403))
    (hn2 : ¬(getStatus e2 = 401 ∨ getStatus e2 = 403))
    (hn3 : ¬(getStatus e3 = 401 ∨ getStatus e3 = 403))
    (hn4 : ¬(getStatus e4 = 401 ∨ getStatus e4 = 403))
    (hn5 : ¬(getStatus e5 = 401 ∨ getStatus e5 = 403)) :
    backoffRun fn 5 = (.error (some e), [], 1)
    ∧ backoffRun g 5 = (.error (some e5), [500, 1000, 2000, 4000], 5) := by
  constructor
  · simp [backoffRun, backoffGo, hf, hauth]
  · simp [backoffRun, backoffGo, hg1, hg2, hg3, hg4, hg5, hn1, hn2, hn3, hn4, hn5]

/-- An authentication failure (status 401). -/
def authErr : MiroErr := { status? := some 401 }

/-- A retryable server failure (status 500). -/
def transientErr : MiroErr := { status? := some 500 }

/-- Witness for C6 at concrete operations: one that always returns 401
and one that always returns 500. -/
theorem backoff_policy_spec_witness :
    ((fun _ => Except.error authErr : Nat → Except MiroErr Unit) 1 =
        .error authErr
      ∧ (getStatus authErr = 401 ∨ getStatus authErr = 403))
    ∧ backoffRun (fun _ => Except.error authErr : Nat → Except MiroErr Unit) 5 =
        (.error (some authErr), [], 1)
    ∧ backoffRun (fun _ => Except.error transientErr : Nat → Except MiroErr Unit) 5 =
        (.error (some transientErr), [500, 1000, 2000, 4000], 5) := by
  have h := backoff_policy_spec Unit
    (fun _ => Except.error authErr) (fun _ => Except.error transientErr)
    authErr transientErr transientErr transientErr transientErr transientErr
    rfl (by decide) rfl rfl rfl rfl rfl
    (by decide) (by decide) (by decide) (by decide) (by decide)
  exact ⟨⟨rfl, by decide⟩, h.1, h.2⟩

/-! ## REST batch creation (`bulkCreateStickies`, miro-poc.ts lines 259-275) -/

/-- The result record accumulated by both transports' batch writers. -/
structure BatchResult where
  ok : Nat := 0
  created : List String := []
  failed : List (StickySpec × MiroErr) := []
deriving DecidableEq

/-- The `try { ... } catch { ... }` body around one `createSticky` call:
`create i n` is the outcome the board service gives the i-th call of the
batch (0-based call sequence). -/
def processNote (create : Nat → StickySpec → Except MiroErr String)
    (idx : Nat) (acc : BatchResult) (n : StickySpec) : BatchResult :=
  match create idx n with
  | .ok rid => { acc with ok := acc.ok + 1, created := acc.created ++ [rid] }
  | .error err => { acc with failed := acc.failed ++ [(n, err)] }

/-- The inner `for (const n of chunk)` loop. -/
def processNotes (create : Nat → StickySpec → Except MiroErr String)
    (idx : Nat) (acc : BatchResult) : List StickySpec → BatchResult
  | [] => acc
  | n :: rest => processNotes create (idx + 1) (processNote create idx acc n) rest

/-- `notes.slice(i, i + chunkSize)` chunking of the outer loop, with fuel
(the source's `for (i = 0; i < notes.length; i += chunkSize)` terminates
exactly when `chunkSize > 0`, the only case the program uses — it always
passes 20). -/
def chunksOfGo (n : Nat) : Nat → List α → List (List α)
  | _, [] => []
  | 0, l => [l]
  | fuel + 1, l => l.take n :: chunksOfGo n fuel (l.drop n)

/-- The list of chunks the outer loop visits. -/
def chunksOf (n : Nat) (l : List α) : List (List α) := chunksOfGo n l.length l

/-- The outer chunk loop. -/
def processChunks (create : Nat → StickySpec → Except MiroErr String) :
    Nat → BatchResult → List (List StickySpec) → BatchResult
  | _, acc, [] => acc
  | idx, acc, c :: cs =>
    processChunks create (idx + c.length) (processNotes create idx acc c) cs

/-- `bulkCreateStickies(boardId, notes, chunkSize)` of the REST transport:
sequential per-item creates, each failure caught and recorded. -/
def bulkCreateStickies (create : Nat → StickySpec → Except MiroErr String)
    (notes : List StickySpec) (chunkSize : Nat) : BatchResult :=
  processChunks create 0 {} (chunksOf chunkSize notes)

/-- The per-item failures a batch must report: the (note, error) pairs of
exactly the failing calls, in order. -/
def failedSpec {α : Type} (create : Nat → StickySpec → Except MiroErr α)
    (idx : Nat) : List StickySpec → List (StickySpec × MiroErr)
  | [] => []
  | n :: rest =>
    match create idx n with
    | .ok _ => failedSpec create (idx + 1) rest
    | .error e => (n, e) :: failedSpec create (idx + 1) rest

theorem chunksOfGo_flatten {α : Type} (n : Nat) (hn : 0 < n) :
    ∀ (fuel : Nat) (l : List α), l.length ≤ fuel →
      (chunksOfGo n fuel l).flatten = l := by
  intro fuel
  induction fuel with
  | zero =>
    intro l hl
    have : l = [] := List.eq_nil_of_length_eq_zero (Nat.le_zero.mp hl)
    subst this; rfl
  | succ fuel ih =>
    intro l hl
    cases l with
    | nil => rfl
    | cons c cs =>
      have hdrop : ((c :: cs).drop n).length ≤ fuel := by
        rw [List.length_drop]
        omega
      simp only [chunksOfGo, List.flatten_cons]
      rw [ih _ hdrop, List.take_append_drop]

theorem processNotes_append (create : Nat → StickySpec → Except MiroErr String) :
    ∀ (l₁ l₂ : List StickySpec) (idx : Nat) (acc : BatchResult),
      processNotes create idx acc (l₁ ++ l₂) =
        processNotes create (idx + l₁.length) (processNotes create idx acc l₁) l₂ := by
  intro l₁
  induction l₁ with
  | nil => intro l₂ idx acc; simp [processNotes]
  | cons n rest ih =>
    intro l₂ idx acc
    simp only [List.cons_append, processNotes, List.length_cons, List.append_eq]
    rw [ih]
    congr 1
    omega

theorem processChunks_eq_processNotes (create : Nat → StickySpec → Except MiroErr String) :
    ∀ (cs : List (List StickySpec)) (idx : Nat) (acc : BatchResult),
      processChunks create idx acc cs = processNotes create idx acc cs.flatten := by
  intro cs
  induction cs with
  | nil => intro idx acc; rfl
  | cons c rest ih =>
    intro idx acc
    simp only [processChunks, List.flatten_cons]
    rw [ih, ← processNotes_append]

/-- For any positive chunk size the chunked loop visits each note once,
in order: `bulkCreateStickies` is the plain sequential fold. -/
theorem bulkCreateStickies_eq (create : Nat → StickySpec → Except MiroErr String)
    (notes : List StickySpec) (chunkSize : Nat) (hc : 0 < chunkSize) :
    bulkCreateStickies create notes chunkSize = processNotes create 0 {} notes := by
  rw [bulkCreateStickies, processChunks_eq_processNotes, chunksOf,
    chunksOfGo_flatten chunkSize hc notes.length notes le_rfl]

theorem processNotes_counts (create : Nat → StickySpec → Except MiroErr String) :
    ∀ (l : List StickySpec) (idx : Nat) (acc : BatchResult),
      (processNotes create idx acc l).ok + (processNotes create idx acc l).failed.length =
        acc.ok + acc.failed.length + l.length := by
  intro l
  induction l with
  | nil => intro idx acc; simp [processNotes]
  | cons n rest ih =>
    intro idx acc
    simp only [processNotes]
    rw [ih]
    unfold processNote
    cases create idx n <;> simp <;> omega

theorem processNotes_failed (create : Nat → StickySpec → Except MiroErr String) :
    ∀ (l : List StickySpec) (idx : Nat) (acc : BatchResult),
      (processNotes create idx acc l).failed = acc.failed ++ failedSpec create idx l := by
  intro l
  induction l with
  | nil => intro idx acc; simp [processNotes, failedSpec]
  | cons n rest ih =>
    intro idx acc
    simp only [processNotes, failedSpec]
    rw [ih]
    unfold processNote
    cases create idx n <;> simp

/-! ## MCP transport: capability resolution and batch creation
(transport-mcp.ts lines 129-139, 338-380) -/

/-- An entry of the transport's static tool catalog. -/
structure McpTool where
  name : String
  description : String := ""
deriving DecidableEq

/-- The static expected-capability list installed on connect
(transport-mcp.ts lines 100-108). -/
def staticTools : List McpTool :=
  [⟨"get_board_info", "Get information about a Miro board"⟩,
   ⟨"list_boards", "List available Miro boards"⟩,
   ⟨"create_sticky_note", "Create a sticky note on a board"⟩,
   ⟨"bulk_create_items", "Create multiple items at once"⟩,
   ⟨"create_shape", "Create a shape on a board"⟩,
   ⟨"get_frames", "Get all frames from a board"⟩,
   ⟨"get_items_in_frame", "Get items in a specific frame"⟩]

/-- ASCII lower-casing, for the case-insensitive name patterns. -/
def asciiLower (s : String) : String :=
  ⟨s.data.map (fun c =>
    if 'A' ≤ c ∧ c ≤ 'Z' then Char.ofNat (c.toNat + 32) else c)⟩

/-- An unanchored case-insensitive regex with one optional `_` expands to
finitely many literal alternatives; `pattern.test(name)` is then a
substring test on the lower-cased name. -/
def patTest (alts : List String) (name : String) : Bool :=
  alts.any (fun a => isSubList a.data (asciiLower name).data)

/-- `/create_?sticky/i`. -/
def patCreateSticky : String → Bool := patTest ["create_sticky", "createsticky"]

/-- `/create_?sticky_?note/i`. -/
def patCreateStickyNote : String → Bool :=
  patTest ["create_sticky_note", "create_stickynote",
           "createsticky_note", "createstickynote"]

/-- `findTool(patterns)` (transport-mcp.ts lines 133-139): first pattern
that matches some tool name wins; the first matching tool is taken. -/
def mcpFindTool (pats : List (String → Bool)) (tools : List McpTool) :
    Option McpTool :=
  match pats with
  | [] => none
  | p :: rest =>
    match tools.find? (fun t => p t.name) with
    | some t => some t
    | none => mcpFindTool rest tools

/-- The decoded result of one `create_sticky_note` tool call: a structured
`id` field, or a human-readable text under `result`. -/
structure McpCallResult where
  id? : Option String := none
  resultText? : Option String := none
deriving DecidableEq

/-- The literal prefix of the `/Created sticky note (\d+)/` pattern. -/
def csnLit : List Char := "Created sticky note ".data

/-- The heuristic id extraction `result.result.match(/Created sticky note
(\d+)/)`: first position where the literal is followed by at least one
digit; the capture is the maximal digit run there. -/
def extractCSN : List Char → Option String
  | [] => none
  | c :: cs =>
    if csnLit.isPrefixOf (c :: cs) then
      let ds := ((c :: cs).drop csnLit.length).takeWhile (·.isDigit)
      if ds.isEmpty then extractCSN cs else some ⟨ds⟩
    else extractCSN cs

/-- The `else if (typeof result?.result === 'string' && ...)` arm of the
created-id bookkeeping. -/
def mcpCreatedText (res : McpCallResult) : List String :=
  match res.resultText? with
  | some s =>
    if strIncludes s "Created sticky note" then
      match extractCSN s.data with
      | some d => [d]
      | none => []
    else []
  | none => []

/-- The ids appended to `created` for one successful call: `result.id`
when truthy (non-empty), else the heuristic text extraction. -/
def mcpCreatedOf (res : McpCallResult) : List String :=
  match res.id? with
  | some i => if i = "" then mcpCreatedText res else [i]
  | none => mcpCreatedText res

/-- The `for (const note of notes)` loop of the MCP
`bulkCreateStickies` (transport-mcp.ts lines 345-377): `ok` counts every
successful call; per-item failures are caught and recorded. -/
def mcpLoop (call : Nat → StickySpec → Except MiroErr McpCallResult)
    (idx : Nat) (acc : BatchResult) : List StickySpec → BatchResult
  | [] => acc
  | n :: rest =>
    match call idx n with
    | .ok res =>
      mcpLoop call (idx + 1)
        { acc with ok := acc.ok + 1, created := acc.created ++ mcpCreatedOf res } rest
    | .error e =>
      mcpLoop call (idx + 1) { acc with failed := acc.failed ++ [(n, e)] } rest

/-- The MCP `bulkCreateStickies`: throws (`.error`) only when no sticky
creation tool resolves in the catalog, otherwise runs the loop. -/
def mcpBulkCreateStickies (call : Nat → StickySpec → Except MiroErr McpCallResult)
    (tools : List McpTool) (notes : List StickySpec) : Except String BatchResult :=
  match mcpFindTool [patCreateSticky, patCreateStickyNote] tools with
  | none => .error "MCP server lacks sticky note creation tool"
  | some _ => .ok (mcpLoop call 0 {} notes)

theorem mcpLoop_counts (call : Nat → StickySpec → Except MiroErr McpCallResult) :
    ∀ (l : List StickySpec) (idx : Nat) (acc : BatchResult),
      (mcpLoop call idx acc l).ok + (mcpLoop call idx acc l).failed.length =
        acc.ok + acc.failed.length + l.length := by
  intro l
  induction l with
  | nil => intro idx acc; simp [mcpLoop]
  | cons n rest ih =>
    intro idx acc
    simp only [mcpLoop]
    cases call idx n <;> rw [ih] <;> simp <;> omega

theorem mcpLoop_failed (call : Nat → StickySpec → Except MiroErr McpCallResult) :
    ∀ (l : List StickySpec) (idx : Nat) (acc : BatchResult),
      (mcpLoop call idx acc l).failed = acc.failed ++ failedSpec call idx l := by
  intro l
  induction l with
  | nil => intro idx acc; simp [mcpLoop, failedSpec]
  | cons n rest ih =>
    intro idx acc
    simp only [mcpLoop, failedSpec]
    cases call idx n <;> rw [ih] <;> simp

/-- The static catalog always resolves a sticky-creation capability
(`create_sticky_note` matches `/create_?sticky/i`). -/
theorem mcpBulk_static_ok (call : Nat → StickySpec → Except MiroErr McpCallResult)
    (notes : List StickySpec) :
    mcpBulkCreateStickies call staticTools notes = .ok (mcpLoop call 0 {} notes) := rfl

/-- C4.  Batch isolation in both transports: for a batch of 5 items where
the 3rd create fails and the other 4 succeed (the successes carrying
non-empty ids), `bulkCreateStickies` reports ok = 4, `failed` holds
exactly the 3rd item with its error, and `created` holds exactly the ids
of the other 4 items; no sibling is skipped because of the failure. -/
theorem batch_isolation_spec (n1 n2 n3 n4 n5 : StickySpec)
    (i1 i2 i4 i5 : String) (e : MiroErr)
    (create : Nat → StickySpec → Except MiroErr String)
    (call : Nat → StickySpec → Except MiroErr McpCallResult)
    (hc1 : create 0 n1 = .ok i1) (hc2 : create 1 n2 = .ok i2)
    (hc3 : create 2 n3 = .error e)
    (hc4 : create 3 n4 = .ok i4) (hc5 : create 4 n5 = .ok i5)
    (hm1 : call 0 n1 = .ok { id? := some i1 }) (hm2 : call 1 n2 = .ok { id? := some i2 })
    (hm3 : call 2 n3 = .error e)
    (hm4 : call 3 n4 = .ok { id? := some i4 }) (hm5 : call 4 n5 = .ok { id? := some i5 })
    (hne1 : i1 ≠ "") (hne2 : i2 ≠ "") (hne4 : i4 ≠ "") (hne5 : i5 ≠ "") :
    bulkCreateStickies create [n1, n2, n3, n4, n5] 20 =
      { ok := 4, created := [i1, i2, i4, i5], failed := [(n3, e)] }
    ∧ mcpBulkCreateStickies call staticTools [n1, n2, n3, n4, n5] =
      .ok { ok := 4, created := [i1, i2, i4, i5], failed := [(n3, e)] } := by
  constructor
  · rw [bulkCreateStickies_eq create _ 20 (by norm_num)]
    simp [processNotes, processNote, hc1, hc2, hc3, hc4, hc5]
  · rw [mcpBulk_static_ok]
    simp [mcpLoop, mcpCreatedOf, hm1, hm2, hm3, hm4, hm5, hne1, hne2, hne4, hne5]

/-- Concrete items for the batch witnesses. -/
def wNote (k : String) : StickySpec := { content := k, x := 0, y := 0 }

/-- A REST-side create that fails exactly on the 3rd call. -/
def wCreate : Nat → StickySpec → Except MiroErr String := fun i _ =>
  if i = 0 then .ok "a" else if i = 1 then .ok "b"
  else if i = 2 then .error transientErr
  else if i = 3 then .ok "d" else .ok "e"

/-- An MCP-side call that fails exactly on the 3rd call. -/
def wCall : Nat → StickySpec → Except MiroErr McpCallResult := fun i _ =>
  if i = 0 then .ok { id? := some "a" } else if i = 1 then .ok { id? := some "b" }
  else if i = 2 then .error transientErr
  else if i = 3 then .ok { id? := some "d" } else .ok { id? := some "e" }

/-- Witness for C4 at the concrete 5-item batch. -/
theorem batch_isolation_spec_witness :
    (wCreate 2 (wNote "c") = .error transientErr
      ∧ wCall 2 (wNote "c") = .error transientErr)
    ∧ bulkCreateStickies wCreate
        [wNote "a", wNote "b", wNote "c", wNote "d", wNote "e"] 20 =
      { ok := 4, created := ["a", "b", "d", "e"],
        failed := [(wNote "c", transientErr)] }
    ∧ mcpBulkCreateStickies wCall staticTools
        [wNote "a", wNote "b", wNote "c", wNote "d", wNote "e"] =
      .ok { ok := 4, created := ["a", "b", "d", "e"],
            failed := [(wNote "c", transientErr)] } := by
  have h := batch_isolation_spec (wNote "a") (wNote "b") (wNote "c") (wNote "d")
    (wNote "e") "a" "b" "d" "e" transientErr wCreate wCall
    rfl rfl rfl rfl rfl rfl rfl rfl rfl rfl
    (by decide) (by decide) (by decide) (by decide)
  exact ⟨⟨rfl, rfl⟩, h.1, h.2⟩

/-- C5.  Neither transport's batch creation throws: the REST loop catches
every per-item error into `failed` (its failure list is exactly the list
of failing calls) and, with the static catalog installed at connect time,
the MCP `bulkCreateStickies` always resolves its tool and returns a
`BatchResult` whose failure list likewise captures exactly the per-item
errors. -/
theorem batch_never_throws_spec
    (create : Nat → StickySpec → Except MiroErr String)
    (call : Nat → StickySpec → Except MiroErr McpCallResult)
    (notes : List StickySpec) (chunkSize : Nat) (hc : 0 < chunkSize) :
    (bulkCreateStickies create notes chunkSize).failed = failedSpec create 0 notes
    ∧ mcpBulkCreateStickies call staticTools notes = .ok (mcpLoop call 0 {} notes)
    ∧ (mcpLoop call 0 {} notes).failed = failedSpec call 0 notes := by
  refine ⟨?_, rfl, ?_⟩
  · rw [bulkCreateStickies_eq create notes chunkSize hc, processNotes_failed]
    rfl
  · rw [mcpLoop_failed]
    rfl

/-- Witness for C5 at the concrete 5-item batch with chunk size 20. -/
theorem batch_never_throws_spec_witness :
    0 < 20
    ∧ (bulkCreateStickies wCreate [wNote "a", wNote "c"] 20).failed =
        failedSpec wCreate 0 [wNote "a", wNote "c"]
    ∧ mcpBulkCreateStickies wCall staticTools [wNote "a", wNote "c"] =
        .ok (mcpLoop wCall 0 {} [wNote "a", wNote "c"])
    ∧ (mcpLoop wCall 0 {} [wNote "a", wNote "c"]).failed =
        failedSpec wCall 0 [wNote "a", wNote "c"] := by
  have h := batch_never_throws_spec wCreate wCall [wNote "a", wNote "c"] 20
    (by norm_num)
  exact ⟨by norm_num, h.1, h.2.1, h.2.2⟩

/-- C9.  Accounting invariant of both batch writers: every input item is
accounted for exactly once, `ok + |failed| = |input|`, whatever the
per-item outcomes. -/
theorem batch_accounting_spec
    (create : Nat → StickySpec → Except MiroErr String)
    (call : Nat → StickySpec → Except MiroErr McpCallResult)
    (notes : List StickySpec) (chunkSize : Nat) (hc : 0 < chunkSize)
    (r : BatchResult)
    (hr : mcpBulkCreateStickies call staticTools notes = .ok r) :
    (bulkCreateStickies create notes chunkSize).ok +
        (bulkCreateStickies create notes chunkSize).failed.length = notes.length
    ∧ r.ok + r.failed.length = notes.length := by
  constructor
  · rw [bulkCreateStickies_eq create notes chunkSize hc]
    simpa using processNotes_counts create notes 0 {}
  · have : r = mcpLoop call 0 {} notes := by
      have := mcpBulk_static_ok call notes
      rw [this] at hr
      exact (Except.ok.injEq .. ▸ hr).symm
    rw [this]
    simpa using mcpLoop_counts call notes 0 {}

/-- Witness for C9 at the concrete 5-item batch (4 ok + 1 failed = 5). -/
theorem batch_accounting_spec_witness :
    (0 < 20
      ∧ mcpBulkCreateStickies wCall staticTools
          [wNote "a", wNote "b", wNote "c", wNote "d", wNote "e"] =
        .ok (mcpLoop wCall 0 {}
          [wNote "a", wNote "b", wNote "c", wNote "d", wNote "e"]))
    ∧ (bulkCreateStickies wCreate
        [wNote "a", wNote "b", wNote "c", wNote "d", wNote "e"] 20).ok +
      (bulkCreateStickies wCreate
        [wNote "a", wNote "b", wNote "c", wNote "d", wNote "e"] 20).failed.length = 5
    ∧ (mcpLoop wCall 0 {}
        [wNote "a", wNote "b", wNote "c", wNote "d", wNote "e"]).ok +
      (mcpLoop wCall 0 {}
        [wNote "a", wNote "b", wNote "c", wNote "d", wNote "e"]).failed.length = 5 := by
  have h := batch_accounting_spec wCreate wCall
    [wNote "a", wNote "b", wNote "c", wNote "d", wNote "e"] 20 (by norm_num)
    (mcpLoop wCall 0 {} [wNote "a", wNote "b", wNote "c", wNote "d", wNote "e"]) rfl
  exact ⟨⟨by norm_num, rfl⟩, h.1, h.2⟩

/-! ## Stdio transport: buffered line reassembly in `McpTransport.call`
(transport-mcp.ts lines 149-208) -/

/-- A parsed JSON-RPC response line: the numeric id used for correlation
and the (already-decoded) payload.  The source's subsequent content-block
decoding is a pure function of this value, so resolving with equal
responses yields equal decoded resolutions. -/
structure RpcResponse where
  id : Nat
  result : String
deriving DecidableEq

/-- The mutable state of one pending `call`: the accumulated stdout
buffer `responseData`, the resolution (none while pending), and whether
the `onData` listener is still attached (`off('data', onData)` after a
match). -/
structure CallState where
  responseData : String
  resolved? : Option RpcResponse
  listenerOn : Bool
deriving DecidableEq

/-- State before any stdout data arrives. -/
def initCallState : CallState := { responseData := "", resolved? := none, listenerOn := true }

/-- The `'"id"'` literal tested by `line.includes('"id"')`. -/
def idPat : String := "\"id\""

/-- The `for (const line of lines)` scan: a non-blank line containing
`"id"` is JSON-parsed (`parse` models `JSON.parse`, `none` standing for a
thrown `SyntaxError`, which the source catches and skips); the first
parsed line whose id equals the outstanding request's id wins. -/
def scanLines (parse : String → Option RpcResponse) (msgId : Nat) :
    List String → Option RpcResponse
  | [] => none
  | line :: rest =>
    if strTrim line ≠ "" ∧ strIncludes line idPat = true then
      match parse line with
      | some resp =>
        if resp.id = msgId then some resp else scanLines parse msgId rest
      | none => scanLines parse msgId rest
    else scanLines parse msgId rest

/-- One `onData` event: append the chunk to the buffer, re-split the
whole buffer on newlines and scan; on a match record the resolution and
detach the listener (after which further events leave the state alone). -/
def onDataStep (parse : String → Option RpcResponse) (msgId : Nat)
    (st : CallState) (chunk : String) : CallState :=
  if st.listenerOn then
    let buf := st.responseData ++ chunk
    match scanLines parse msgId (splitNl buf) with
    | some resp => { responseData := buf, resolved? := some resp, listenerOn := false }
    | none => { responseData := buf, resolved? := st.resolved?, listenerOn := true }
  else st

/-- A sequence of stdout data events. -/
def runChunks (parse : String → Option RpcResponse) (msgId : Nat)
    (st : CallState) (chunks : List String) : CallState :=
  chunks.foldl (onDataStep parse msgId) st

/-- C3.  Fragmented message reassembly: when a valid response line for the
outstanding id arrives split across two stdout events — the first event
alone resolving nothing, the newline arriving only with the second — the
buffer is reassembled and the pending request is resolved with that
response, and the resulting state is identical to the one produced had
the full line arrived in a single event. -/
theorem mcp_reassembly_spec (parse : String → Option RpcResponse) (msgId : Nat)
    (c1 c2 : String) (resp : RpcResponse)
    (h1 : (onDataStep parse msgId initCallState c1).resolved? = none)
    (hnl : '\n' ∉ (c1 ++ c2).data)
    (htrim : strTrim (c1 ++ c2) ≠ "")
    (hid : strIncludes (c1 ++ c2) idPat = true)
    (hp : parse (c1 ++ c2) = some resp)
    (hm : resp.id = msgId) :
    (runChunks parse msgId initCallState [c1, c2 ++ "\n"]).resolved? = some resp
    ∧ runChunks parse msgId initCallState [c1, c2 ++ "\n"] =
        runChunks parse msgId initCallState [(c1 ++ c2) ++ "\n"] := by
  have hs1 : onDataStep parse msgId initCallState c1 =
      { responseData := "" ++ c1, resolved? := none, listenerOn := true } := by
    unfold onDataStep at h1 ⊢
    simp only [initCallState, if_true] at h1 ⊢
    cases hscan : scanLines parse msgId (splitNl ("" ++ c1)) with
    | none => simp [hscan]
    | some r => rw [hscan] at h1; simp at h1
  have hbufdata : ∀ s : String, ("" ++ s).data = s.data := by
    intro s; simp [String.data_append]
  have hbuf2 : ("" ++ c1) ++ (c2 ++ "\n") = (c1 ++ c2) ++ "\n" := by
    apply String.ext
    simp [String.data_append]
  have hbuf1 : ("" : String) ++ ((c1 ++ c2) ++ "\n") = (c1 ++ c2) ++ "\n" := by
    apply String.ext
    simp [String.data_append]
  have hsplit : splitNl ((c1 ++ c2) ++ "\n") = [c1 ++ c2, ""] := by
    unfold splitNl
    have : ((c1 ++ c2) ++ "\n").data = (c1 ++ c2).data ++ ['\n'] := by
      simp [String.data_append]
    rw [this, splitNlChars_line hnl]
    rfl
  have hscan2 : scanLines parse msgId [c1 ++ c2, ""] = some resp := by
    unfold scanLines
    rw [if_pos ⟨htrim, hid⟩, hp]
    exact if_pos hm
  have hstep : ∀ st : CallState, st.listenerOn = true →
      st.responseData ++ ((c1 ++ c2) ++ "\n") = (c1 ++ c2) ++ "\n" →
      onDataStep parse msgId st ((c1 ++ c2) ++ "\n") =
        { responseData := (c1 ++ c2) ++ "\n", resolved? := some resp,
          listenerOn := false } := by
    intro st hon hdata
    unfold onDataStep
    rw [if_pos hon]
    simp only [hdata, hsplit, hscan2]
  have h2 : onDataStep parse msgId
      { responseData := "" ++ c1, resolved? := none, listenerOn := true }
      (c2 ++ "\n") =
      { responseData := (c1 ++ c2) ++ "\n", resolved? := some resp,
        listenerOn := false } := by
    unfold onDataStep
    simp only [if_true]
    rw [show ("" ++ c1) ++ (c2 ++ "\n") = (c1 ++ c2) ++ "\n" from hbuf2] at *
    simp only [hbuf2, hsplit, hscan2]
  have hleft : runChunks parse msgId initCallState [c1, c2 ++ "\n"] =
      { responseData := (c1 ++ c2) ++ "\n", resolved? := some resp,
        listenerOn := false } := by
    simp only [runChunks, List.foldl]
    rw [hs1, h2]
  have hright : runChunks parse msgId initCallState [(c1 ++ c2) ++ "\n"] =
      { responseData := (c1 ++ c2) ++ "\n", resolved? := some resp,
        listenerOn := false } := by
    simp only [runChunks, List.foldl]
    have := hstep initCallState rfl hbuf1
    simpa [initCallState] using this
  refine ⟨?_, ?_⟩
  · rw [hleft]
  · rw [hleft, hright]

/-- A concrete `JSON.parse` accepting exactly the test response line. -/
def wParse : String → Option RpcResponse := fun s =>
  if s = "\x7b\"id\":1\x7d" then some { id := 1, result := "ok" } else none

/-- First fragment of the split response line. -/
def wC1 : String := "\x7b\"id\""

/-- Second fragment; the newline arrives with this event. -/
def wC2 : String := ":1\x7d"

/-- Witness for C3: the response line split as `{"id"` + `:1}\n` over two
events resolves request 1 exactly as the unsplit line does. -/
theorem mcp_reassembly_spec_witness :
    ((onDataStep wParse 1 initCallState wC1).resolved? = none
      ∧ wParse (wC1 ++ wC2) = some { id := 1, result := "ok" })
    ∧ (runChunks wParse 1 initCallState [wC1, wC2 ++ "\n"]).resolved? =
        some { id := 1, result := "ok" }
    ∧ runChunks wParse 1 initCallState [wC1, wC2 ++ "\n"] =
        runChunks wParse 1 initCallState [(wC1 ++ wC2) ++ "\n"] := by
  have h := mcp_reassembly_spec wParse 1 wC1 wC2 { id := 1, result := "ok" }
    (by decide) (by decide) (by decide) (by decide) (by decide) rfl
  exact ⟨⟨by decide, by decide⟩, h.1, h.2⟩

/-! ## Reconciliation orchestrator, REST path (miro-poc.ts lines 213-241
and 325-435) -/

/-- A mutating write issued against the board service. -/
inductive WriteEffect
  | createFrame (title : String)
  | createSticky (content : String)
deriving DecidableEq

/-- The board service's state as this program observes it: its frames and
its sticky notes. -/
structure BoardState where
  frames : List FrameSpec
  stickies : List BoardSticky
deriving DecidableEq

/-- A run's extraction result (`InsightsRisks`): the run id derived from
the transcript and the two bullet lists. -/
structure RunInput where
  runId : String
  insights : List String
  risks : List String

/-- `getOrCreateFrame` (miro-poc.ts lines 213-241): scan the board's
frames for an exact trimmed-title match; create the frame (a mutating
write) only when absent.  Returns the frame, the board afterwards, and
the writes issued. -/
def getOrCreateFrame (board : BoardState) (freshId title : String)
    (x y width height : ℚ) : FrameSpec × BoardState × List WriteEffect :=
  match board.frames.find? (fun f => strTrim f.title == strTrim title) with
  | some f =>
    ({ id := f.id, title := title, x := f.x, y := f.y,
       width := f.width, height := f.height }, board, [])
  | none =>
    let created : FrameSpec :=
      { id := freshId, title := title, x := x, y := y, width := width, height := height }
    (created, { board with frames := board.frames ++ [created] },
     [.createFrame title])

/-- The board service's side of the batch write: each successful
`createSticky` POST adds the (parentless) item to the board. -/
def boardAfterCreates (create : Nat → StickySpec → Except MiroErr String)
    (idx : Nat) (stickies : List BoardSticky) :
    List StickySpec → List BoardSticky
  | [] => stickies
  | n :: rest =>
    match create idx n with
    | .ok i => boardAfterCreates create (idx + 1) (stickies ++ [createStickyItem i n]) rest
    | .error _ => boardAfterCreates create (idx + 1) stickies rest

/-- What one run of the main flow produces: the board afterwards, the
mutating writes issued, the computed delta, and the batch outcome. -/
structure RunOutcome where
  board : BoardState
  writes : List WriteEffect
  insightsToCreate : List String
  risksToCreate : List String
  okCount : Nat
  failed : List (StickySpec × MiroErr)

/-- One run of the main flow over the REST transport (miro-poc.ts lines
357-435): decorate bullets, ensure the two frames (before any gate),
list existing stickies per frame, compute the delta, lay out the
surviving items and stamp their `parentId`, then — only when `execute`
is set — batch-create both groups.  `create i n` is the outcome of the
i-th sticky POST of the run; `fid1`/`fid2` are the ids the service would
assign to newly created frames. -/
def runPipelineRest (board0 : BoardState) (inp : RunInput) (execute : Bool)
    (create : Nat → StickySpec → Except MiroErr String) (fid1 fid2 : String) :
    RunOutcome :=
  let insightsBullets := inp.insights.map (fun s => decorate s inp.runId)
  let risksBullets := inp.risks.map (fun s => decorate s inp.runId)
  let e1 := getOrCreateFrame board0 fid1 "Insights" (-900) 0 1400 900
  let insightsFrame := e1.1
  let e2 := getOrCreateFrame e1.2.1 fid2 "Risks" 900 0 1400 900
  let risksFrame := e2.1
  let b2 := e2.2.1
  let frameWrites := e1.2.2 ++ e2.2.2
  let existingInsights := listStickyNotesInFrame b2.stickies insightsFrame.id
  let existingRisks := listStickyNotesInFrame b2.stickies risksFrame.id
  let insightsToCreate := computeToCreate inp.runId insightsBullets existingInsights
  let risksToCreate := computeToCreate inp.runId risksBullets existingRisks
  let insightsNotes :=
    (gridLayoutInFrame insightsFrame insightsToCreate { columns? := some 3 }).map
      (fun n => { n with parentId? := some insightsFrame.id })
  let risksNotes :=
    (gridLayoutInFrame risksFrame risksToCreate { columns? := some 3 }).map
      (fun n => { n with parentId? := some risksFrame.id })
  if execute then
    let res1 := bulkCreateStickies create insightsNotes 20
    let res2 := bulkCreateStickies
      (fun i n => create (insightsNotes.length + i) n) risksNotes 20
    let stick1 := boardAfterCreates create 0 b2.stickies insightsNotes
    let stick2 := boardAfterCreates create insightsNotes.length stick1 risksNotes
    { board := { b2 with stickies := stick2 },
      writes := frameWrites
        ++ insightsNotes.map (fun n => .createSticky n.content)
        ++ risksNotes.map (fun n => .createSticky n.content),
      insightsToCreate := insightsToCreate,
      risksToCreate := risksToCreate,
      okCount := res1.ok + res2.ok,
      failed := res1.failed ++ res2.failed }
  else
    { board := b2, writes := frameWrites,
      insightsToCreate := insightsToCreate, risksToCreate := risksToCreate,
      okCount := 0, failed := [] }

/-- `getOrCreateFrame` issues at most a frame creation, never a sticky
creation. -/
theorem getOrCreateFrame_writes (board : BoardState) (freshId title : String)
    (x y width height : ℚ) :
    ∀ e ∈ (getOrCreateFrame board freshId title x y width height).2.2,
      ∃ t, e = WriteEffect.createFrame t := by
  intro e he
  unfold getOrCreateFrame at he
  rcases hfind : List.find? (fun f => strTrim f.title == strTrim title) board.frames
    with _ | f
  · rw [hfind] at he
    simp at he
    exact ⟨title, he⟩
  · rw [hfind] at he
    simp at he

/-- C2 (amended).  In preview mode (execute flag not set) the run stops
at the preview gate before any sticky creation: no sticky-create write
is ever issued.  (Frame creation is not withheld: the ensure-frames step
runs before the gate — see the counterexample.) -/
theorem preview_no_sticky_writes (board : BoardState) (inp : RunInput)
    (create : Nat → StickySpec → Except MiroErr String) (fid1 fid2 c : String) :
    WriteEffect.createSticky c ∉
      (runPipelineRest board inp false create fid1 fid2).writes := by
  intro hmem
  unfold runPipelineRest at hmem
  simp only [if_neg (by simp : ¬(false = true))] at hmem
  rw [List.mem_append] at hmem
  rcases hmem with h | h
  · obtain ⟨t, ht⟩ := getOrCreateFrame_writes _ _ _ _ _ _ _ _ h
    exact WriteEffect.noConfusion ht
  · obtain ⟨t, ht⟩ := getOrCreateFrame_writes _ _ _ _ _ _ _ _ h
    exact WriteEffect.noConfusion ht

/-- A board holding no frames and no stickies. -/
def emptyBoard : BoardState := { frames := [], stickies := [] }

/-- The extraction of the test transcript: run id `r1`, one insight. -/
def cInput : RunInput := { runId := "r1", insights := ["alpha"], risks := [] }

/-- Witness for the amended C2 at a concrete preview run. -/
theorem preview_no_sticky_writes_witness :
    WriteEffect.createSticky "x" ∉
      (runPipelineRest emptyBoard cInput false wCreate "F1" "F2").writes :=
  preview_no_sticky_writes emptyBoard cInput wCreate "F1" "F2" "x"

/-- Counterexample to C2 as stated: on a board with no frames, a preview
run (execute not set) does issue a mutating create — it creates the
`Insights` frame before reaching the gate. -/
theorem preview_creates_frames_counterexample :
    WriteEffect.createFrame "Insights" ∈
      (runPipelineRest emptyBoard cInput false wCreate "F1" "F2").writes := by
  decide

/-- The board before the first run: both frames exist, no stickies. -/
def twoFramesBoard : BoardState :=
  { frames := [⟨"F1", "Insights", -900, 0, 1400, 900⟩,
               ⟨"F2", "Risks", 900, 0, 1400, 900⟩],
    stickies := [] }

/-- A board service on which every sticky POST succeeds. -/
def allOkCreate : Nat → StickySpec → Except MiroErr String := fun _ _ => .ok "sid"

/-- The first (fully successful) execute run. -/
def firstRun : RunOutcome :=
  runPipelineRest twoFramesBoard cInput true allOkCreate "X1" "X2"

/-- C1 fails on the code: after a first run that fully succeeds (no
failures, the decorated item created on the board), the second run over
the same board and source computes the full item set again —
`insightsToCreate` is the whole decorated list, not `[]` — because
`createSticky` drops the parent id and `listStickyNotesInFrame` only
returns items whose `parent.id` equals the frame id. -/
theorem idempotence_fails_on_rerun :
    (firstRun.failed = [] ∧ firstRun.okCount = 1
      ∧ decorate "alpha" "r1" ∈ firstRun.board.stickies.map (·.content))
    ∧ (runPipelineRest firstRun.board cInput true allOkCreate "X3" "X4").insightsToCreate
        = [decorate "alpha" "r1"]
    ∧ (runPipelineRest firstRun.board cInput true allOkCreate "X3" "X4").insightsToCreate
        ≠ [] := by
  refine ⟨⟨?_, ?_, ?_⟩, ?_, ?_⟩ <;> decide

end MiroSpec
